import Mathlib

/-!
# Search endpoint of Multi-DB-Flipkart (`main.go`)

A shallow embedding of `fetchFromMySQL`, `fetchMetadataFromMongo` and
`searchHandler`.  The three backends (Redis, MySQL, MongoDB) are process-wide
globals in the Go program; here they are the fields of an explicit `World`
value that every backend call receives and returns.  Each backend call also
appends one entry to `World.calls`, so "which backend calls were made, and in
which order" is a statement about that list.

Conventions.
* Go `string` and `[]byte` values are Lean `String`s; the program only
  concatenates them, compares them with `""` and hands them to libraries.
* Go's `float64` is the type parameter `F`; how `encoding/json` prints a float
  and a string literal is the parameter `Encoders F`.
* A Go slice is a `Slice`, which keeps the nil slice apart from a non-nil one:
  `encoding/json` prints the former as `null` and the latter as an array.
* `fmt.Println` output is not part of the model.

Library behaviour taken as given.
* `c.JSON(code, obj)` writes the bytes of `json.Marshal(obj)` as the body, and
  no body when `json.Marshal` fails; `c.Data` writes its bytes unchanged.
* `rdb.Set` stores the bytes it is given and `rdb.Get` returns them; an entry
  does not expire between the requests considered (the expiration is recorded
  on the call).
* The catalog answers by the query argument and the metadata store by the
  product id, the same way for the whole of a request.
-/

namespace Flipkart

/-! ## Go values -/

/-- A Go slice value: the nil slice, or a non-nil slice with its elements. -/
inductive Slice (α : Type) where
  | nil : Slice α
  | mk (elems : List α) : Slice α
deriving DecidableEq, Repr

/-- The elements of a slice, in order (none for the nil slice). -/
def Slice.toList {α : Type} : Slice α → List α
  | Slice.nil => []
  | Slice.mk xs => xs

/-- Go's `len(s)`. -/
def Slice.len {α : Type} (s : Slice α) : Nat := s.toList.length

/-- Go's `append(s, x)`: the result is never nil. -/
def Slice.append {α : Type} : Slice α → α → Slice α
  | Slice.nil, x => Slice.mk [x]
  | Slice.mk xs, x => Slice.mk (xs ++ [x])

/-- Rebuilds a slice around updated elements; a nil slice stays nil, as after
a `for i := range s` loop that assigns to `s[i]`. -/
def Slice.withElems {α : Type} : Slice α → List α → Slice α
  | Slice.nil, _ => Slice.nil
  | Slice.mk _, ys => Slice.mk ys

/-- The struct `Product` (lines 19-25); `Price` is a Go `float64`. -/
structure Product (F : Type) where
  ID : Int
  Name : String
  Category : String
  Price : F
  Reviews : Slice String
deriving DecidableEq, Repr

/-- The unit `time.Minute` of `time.Duration`, in nanoseconds. -/
def Minute : Nat := 60 * 1000000000

def StatusOK : Nat := 200

def StatusBadRequest : Nat := 400

def StatusInternalServerError : Nat := 500

/-! ## Backends -/

/-- What `rows.Scan` does for one row delivered by `rows.Next()`. -/
inductive ScanOutcome (F : Type) where
  | row (id : Int) (name category : String) (price : F) : ScanOutcome F
  | scanErr : ScanOutcome F
deriving DecidableEq, Repr

/-- What `mysqlDB.Query` returns: an error, or a row cursor that delivers
`scans` and then stops, with `rows.Err()` non-nil when `iterErr` is set. -/
inductive QueryOutcome (F : Type) where
  | failed : QueryOutcome F
  | rows (scans : List (ScanOutcome F)) (iterErr : Bool) : QueryOutcome F
deriving DecidableEq, Repr

/-- What `coll.FindOne(ctx, filter).Decode(&result)` does: it fills
`result.Reviews`, or fails with `mongo.ErrNoDocuments`, or fails with another
error. -/
inductive FindOneOutcome where
  | doc (reviews : Slice String) : FindOneOutcome
  | noDocuments : FindOneOutcome
  | failed : FindOneOutcome
deriving DecidableEq, Repr

/-- What `rdb.Get(ctx, key).Result()` returns: `(v, nil)`, `("", redis.Nil)`
or `("", err)` with another error. -/
inductive GetOutcome where
  | value (v : String) : GetOutcome
  | redisNil : GetOutcome
  | failed : GetOutcome
deriving DecidableEq, Repr

/-- One call made to a backend. -/
inductive Call where
  | redisGet (key : String) : Call
  | mysqlQuery (query arg : String) : Call
  | mongoFindOne (collection : String) (productID : Int) : Call
  | redisSet (key value : String) (expiration : Nat) : Call
deriving DecidableEq, Repr

/-- The backends behind the globals `rdb`, `mysqlDB` and `mongoDB`.
`redisStore` holds the unexpired Redis entries.  `redisFaults` scripts the
coming Redis commands: the head says whether the next command fails with a
backend error (an exhausted script means no failure).  `mysql` answers the
parameterised catalog query by its argument, `mongo` answers the point lookup
by product id; neither changes while requests run.  `calls` is the log of
backend calls made so far. -/
structure World (F : Type) where
  redisStore : String → Option String
  redisFaults : List Bool
  mysql : String → QueryOutcome F
  mongo : Int → FindOneOutcome
  calls : List Call

/-- Records a backend call in the log. -/
def World.record {F : Type} (w : World F) (c : Call) : World F :=
  { w with calls := w.calls ++ [c] }

/-- Whether the next Redis command fails. -/
def World.redisFails {F : Type} (w : World F) : Bool :=
  match w.redisFaults with
  | [] => false
  | b :: _ => b

/-- The command `rdb.Get(ctx, key).Result()`. -/
def rdbGet {F : Type} (key : String) (w : World F) : GetOutcome × World F :=
  let w1 := { w.record (Call.redisGet key) with redisFaults := w.redisFaults.tail }
  if w.redisFails then (GetOutcome.failed, w1)
  else
    match w.redisStore key with
    | some v => (GetOutcome.value v, w1)
    | none => (GetOutcome.redisNil, w1)

/-- The command `rdb.Set(ctx, key, value, expiration)`; the program drops the
returned status.  A command that fails leaves the store as it was. -/
def rdbSet {F : Type} (key value : String) (expiration : Nat) (w : World F) : World F :=
  let w1 := { w.record (Call.redisSet key value expiration) with redisFaults := w.redisFaults.tail }
  if w.redisFails then w1
  else { w1 with redisStore := fun k => if k = key then some value else w.redisStore k }

/-- The call `mysqlDB.Query(query, arg)`. -/
def mysqlQuery {F : Type} (query arg : String) (w : World F) : QueryOutcome F × World F :=
  (w.mysql arg, w.record (Call.mysqlQuery query arg))

/-- The call `coll.FindOne(ctx, filter).Decode(&result)` on collection
`product_reviews` with filter `product_id = productID`. -/
def mongoFindOne {F : Type} (collection : String) (productID : Int) (w : World F) :
    FindOneOutcome × World F :=
  (w.mongo productID, w.record (Call.mongoFindOne collection productID))

/-! ## `fetchFromMySQL` (lines 66-88) -/

/-- The loop `for rows.Next()` of lines 75-81: a row whose `Scan` fails is
skipped, any other row is appended with no reviews. -/
def scanRows {F : Type} : List (ScanOutcome F) → Slice (Product F) → Slice (Product F)
  | [], products => products
  | ScanOutcome.scanErr :: rest, products => scanRows rest products
  | ScanOutcome.row id name category price :: rest, products =>
    scanRows rest (products.append
      { ID := id, Name := name, Category := category, Price := price, Reviews := Slice.nil })

/-- The statement text `query` of line 67. -/
def fetchFromMySQL.query : String :=
  "SELECT id, name, category, price FROM products WHERE name LIKE ? LIMIT 10"

/-- The function `fetchFromMySQL`; `none` stands for a non-nil `error`. -/
def fetchFromMySQL {F : Type} (keyword : String) (w : World F) :
    Option (Slice (Product F)) × World F :=
  match mysqlQuery fetchFromMySQL.query ("%" ++ keyword ++ "%") w with
  | (QueryOutcome.failed, w1) => (none, w1)
  | (QueryOutcome.rows scans iterErr, w1) =>
    let products := scanRows scans Slice.nil
    if iterErr then (none, w1) else (some products, w1)

/-! ## `fetchMetadataFromMongo` (lines 90-102) -/

/-- The function `fetchMetadataFromMongo`; `none` stands for a non-nil
`error`, returned together with a nil slice. -/
def fetchMetadataFromMongo {F : Type} (productID : Int) (w : World F) :
    Option (Slice String) × World F :=
  match mongoFindOne "product_reviews" productID w with
  | (FindOneOutcome.doc reviews, w1) => (some reviews, w1)
  | (_, w1) => (none, w1)

/-! ## `encoding/json` and gin rendering -/

/-- The leaf encoders of `encoding/json`: `float` prints a `float64` and has
no result for NaN and the infinities, which `json.Marshal` rejects with an
error; `string` prints a quoted, escaped string literal. -/
structure Encoders (F : Type) where
  float : F → Option String
  string : String → String

/-- JSON text of a list of already encoded elements. -/
def jsonArray (items : List String) : String :=
  "[" ++ ",".intercalate items ++ "]"

/-- JSON text of one `Product`, following its struct tags: the field
`reviews` is left out when `len(Reviews) == 0` (`omitempty`). -/
def marshalProduct {F : Type} (enc : Encoders F) (p : Product F) : Option String :=
  match enc.float p.Price with
  | none => none
  | some price =>
    some ("\x7b\"id\":" ++ toString p.ID
      ++ ",\"name\":" ++ enc.string p.Name
      ++ ",\"category\":" ++ enc.string p.Category
      ++ ",\"price\":" ++ price
      ++ (if p.Reviews.len = 0 then ""
          else ",\"reviews\":" ++ jsonArray (p.Reviews.toList.map enc.string))
      ++ "\x7d")

/-- JSON text of each product of a list; no result as soon as one fails. -/
def marshalProductList {F : Type} (enc : Encoders F) : List (Product F) → Option (List String)
  | [] => some []
  | p :: ps =>
    match marshalProduct enc p, marshalProductList enc ps with
    | some o, some os => some (o :: os)
    | _, _ => none

/-- The call `json.Marshal(products)` for a `[]Product`: a nil slice encodes
as `null`, a non-nil slice as an array; `none` stands for a non-nil `error`. -/
def jsonMarshal {F : Type} (enc : Encoders F) : Slice (Product F) → Option String
  | Slice.nil => some "null"
  | Slice.mk ps => (marshalProductList enc ps).map jsonArray

/-- The value handed to `c.JSON`: a one-entry `gin.H` map or the products. -/
inductive Obj (F : Type) where
  | H (key value : String) : Obj F
  | products (ps : Slice (Product F)) : Obj F
deriving DecidableEq, Repr

/-- The response call made on the gin context: `c.JSON(code, obj)` or
`c.Data(code, contentType, data)`. -/
inductive Response (F : Type) where
  | JSON (code : Nat) (obj : Obj F) : Response F
  | Data (code : Nat) (contentType : String) (data : String) : Response F
deriving DecidableEq, Repr

/-- The status code passed to the response call. -/
def Response.status {F : Type} : Response F → Nat
  | Response.JSON code _ => code
  | Response.Data code _ _ => code

/-- What `json.Marshal` gives for the value handed to `c.JSON`. -/
def marshalObj {F : Type} (enc : Encoders F) : Obj F → Option String
  | Obj.H key value => some ("\x7b" ++ enc.string key ++ ":" ++ enc.string value ++ "\x7d")
  | Obj.products ps => jsonMarshal enc ps

/-- The body bytes written to the client: `c.Data` writes `data` as is,
`c.JSON` writes the bytes of `json.Marshal(obj)` and writes nothing when that
fails. -/
def Response.body {F : Type} (enc : Encoders F) : Response F → String
  | Response.JSON _ obj => (marshalObj enc obj).getD ""
  | Response.Data _ _ data => data

/-! ## `searchHandler` (lines 104-147) -/

/-- The gin context of a request, reduced to its URL query parameters. -/
structure Context where
  params : List (String × String)

/-- The method `c.Query(key)`: the first value of the parameter, or `""` when
the parameter is missing. -/
def Context.Query (c : Context) (key : String) : String :=
  match c.params.lookup key with
  | some v => v
  | none => ""

/-- The expression `"search:" + keyword` of line 112. -/
def cacheKey (keyword : String) : String := "search:" ++ keyword

/-- The loop of lines 137-140 over the elements of `products`: one metadata
lookup per product, in order; the ignored error leaves `reviews` nil. -/
def attachReviews {F : Type} : List (Product F) → World F → List (Product F) × World F
  | [], w => ([], w)
  | p :: rest, w =>
    let (reviews, w1) := fetchMetadataFromMongo p.ID w
    let (rest1, w2) := attachReviews rest w1
    ({ p with Reviews := reviews.getD Slice.nil } :: rest1, w2)

/-- The function `searchHandler`: the response call it makes and the world it
leaves behind. -/
def searchHandler {F : Type} (enc : Encoders F) (c : Context) (w : World F) :
    Response F × World F :=
  let keyword := c.Query "q"
  if keyword = "" then
    (Response.JSON StatusBadRequest (Obj.H "error" "Missing search keyword"), w)
  else
    match rdbGet (cacheKey keyword) w with
    | (GetOutcome.value cached, w1) => (Response.Data StatusOK "application/json" cached, w1)
    | (_, w1) =>
      match fetchFromMySQL keyword w1 with
      | (none, w2) =>
        (Response.JSON StatusInternalServerError (Obj.H "error" "Database error"), w2)
      | (some products, w2) =>
        let (elems, w3) := attachReviews products.toList w2
        let products := products.withElems elems
        let response := (jsonMarshal enc products).getD ""
        let w4 := rdbSet (cacheKey keyword) response (10 * Minute) w3
        (Response.JSON StatusOK (Obj.products products), w4)

/-! ## Proof vocabulary -/

/-- The reviews the handler keeps for a lookup outcome: those of the document,
and the nil slice for both kinds of failure. -/
def reviewsOf : FindOneOutcome → Slice String
  | FindOneOutcome.doc reviews => reviews
  | _ => Slice.nil

/-- A candidate with the reviews that metadata store `mongo` yields for it. -/
def enriched {F : Type} (mongo : Int → FindOneOutcome) (p : Product F) : Product F :=
  { p with Reviews := reviewsOf (mongo p.ID) }

/-- The candidates `cs` after enrichment against `mongo`. -/
def served {F : Type} (mongo : Int → FindOneOutcome) (cs : Slice (Product F)) :
    Slice (Product F) :=
  cs.withElems (cs.toList.map (enriched mongo))

/-- The metadata lookups for a list of candidates, in order. -/
def lookups {F : Type} (cs : List (Product F)) : List Call :=
  cs.map (fun p => Call.mongoFindOne "product_reviews" p.ID)

/-- Removal of leading and trailing white space from a keyword, the
normalisation the specification speaks of; `searchHandler` has no such step. -/
def trimSpace (s : String) : String :=
  String.mk ((s.data.dropWhile Char.isWhitespace).reverse.dropWhile Char.isWhitespace).reverse

/-- The world after the cache read and the catalog query of a request. -/
def afterCatalog {F : Type} (keyword : String) (w : World F) : World F :=
  { w with
    redisFaults := w.redisFaults.tail
    calls := w.calls ++ [Call.redisGet (cacheKey keyword),
      Call.mysqlQuery fetchFromMySQL.query ("%" ++ keyword ++ "%")] }

/-- The JSON object of one product with its price already printed as
`price`: the keys `id`, `name`, `category`, `price` in this order, then
`reviews` when there is at least one review. -/
def productObject {F : Type} (enc : Encoders F) (priceText : F → String) (e : Product F) :
    String :=
  "\x7b\"id\":" ++ toString e.ID
    ++ ",\"name\":" ++ enc.string e.Name
    ++ ",\"category\":" ++ enc.string e.Category
    ++ ",\"price\":" ++ priceText e.Price
    ++ (if e.Reviews.len = 0 then ""
        else ",\"reviews\":" ++ ("[" ++ ",".intercalate (e.Reviews.toList.map enc.string) ++ "]"))
    ++ "\x7d"

/-- Whether a backend call is a cache read. -/
def Call.isRedisGet : Call → Bool
  | Call.redisGet _ => true
  | _ => false

/-- Whether a backend call is a catalog query. -/
def Call.isMysqlQuery : Call → Bool
  | Call.mysqlQuery _ _ => true
  | _ => false

/-- Whether a backend call is a metadata lookup. -/
def Call.isMongoFindOne : Call → Bool
  | Call.mongoFindOne _ _ => true
  | _ => false

/-- Whether a backend call is a cache write. -/
def Call.isRedisSet : Call → Bool
  | Call.redisSet _ _ _ => true
  | _ => false

/-! ## Sample data -/

/-- Encoders for the samples: prices are whole numbers and strings need no
escaping. -/
def sampleEnc : Encoders Nat :=
  { float := fun n => some (toString n), string := fun s => "\"" ++ s ++ "\"" }

/-- A catalog with two products matching `phone`, reviews for product 1 only,
an empty cache and a healthy Redis. -/
def sampleWorld : World Nat :=
  { redisStore := fun _ => none
    redisFaults := []
    mysql := fun arg =>
      if arg = "%phone%" then
        QueryOutcome.rows
          [ScanOutcome.row 1 "Smartphone X" "electronics" 500,
           ScanOutcome.row 2 "Phone Case" "accessories" 10] false
      else QueryOutcome.rows [] false
    mongo := fun id => if id = 1 then FindOneOutcome.doc (Slice.mk ["great!"])
      else FindOneOutcome.noDocuments
    calls := [] }

/-- A request `GET /search?q=phone`. -/
def phoneCtx : Context := { params := [("q", "phone")] }

/-- A request `GET /search` without any parameter. -/
def bareCtx : Context := { params := [] }

/-- A request `GET /search?q=%20`, whose keyword is one space. -/
def blankCtx : Context := { params := [("q", " ")] }

/-- The sample world with an entry for `phone` already in the cache. -/
def warmWorld : World Nat :=
  { sampleWorld with
    redisStore := fun k => if k = "search:phone" then some "[\"cached\"]" else none }

/-- A request `GET /search?q=zzz`, a keyword that matches no product. -/
def noMatchCtx : Context := { params := [("q", "zzz")] }

/-- The sample world with the catalog store unreachable. -/
def catalogDownWorld : World Nat :=
  { sampleWorld with mysql := fun _ => QueryOutcome.failed }

/-- The sample world with Redis failing on its next two commands. -/
def redisDownWorld : World Nat :=
  { sampleWorld with redisFaults := [true, true] }

/-- A sample `float64`: a whole amount, or NaN. -/
inductive SamplePrice where
  | amount (n : Nat) : SamplePrice
  | nan : SamplePrice
deriving DecidableEq, Repr

/-- Encoders over `SamplePrice`: as in `encoding/json`, NaN has no encoding. -/
def nanEnc : Encoders SamplePrice :=
  { float := fun x =>
      match x with
      | SamplePrice.amount n => some (toString n)
      | SamplePrice.nan => none
    string := fun s => "\"" ++ s ++ "\"" }

/-- A cold, healthy world whose catalog has one product matching `phone`, with
a price that scans to NaN. -/
def nanWorld : World SamplePrice :=
  { redisStore := fun _ => none
    redisFaults := []
    mysql := fun _ => QueryOutcome.rows
      [ScanOutcome.row 7 "Phone Stand" "accessories" SamplePrice.nan] false
    mongo := fun _ => FindOneOutcome.noDocuments
    calls := [] }

/-! ## Backend calls: effect on the world -/

section Effects

variable {F : Type}

theorem rdbGet_snd (key : String) (w : World F) :
    (rdbGet key w).2 =
      { w with redisFaults := w.redisFaults.tail, calls := w.calls ++ [Call.redisGet key] } := by
  unfold rdbGet World.record
  split
  · rfl
  · split <;> rfl

theorem rdbGet_fst (key : String) (w : World F) :
    (rdbGet key w).1 =
      if w.redisFails then GetOutcome.failed
      else match w.redisStore key with
        | some v => GetOutcome.value v
        | none => GetOutcome.redisNil := by
  unfold rdbGet
  split
  · rfl
  · split <;> simp_all

theorem fetchFromMySQL_snd (keyword : String) (w : World F) :
    (fetchFromMySQL keyword w).2 =
      { w with calls := w.calls ++
          [Call.mysqlQuery fetchFromMySQL.query ("%" ++ keyword ++ "%")] } := by
  unfold fetchFromMySQL mysqlQuery World.record
  split
  · simp_all
  · split <;> simp_all

theorem fetchFromMySQL_fst (keyword : String) (w : World F) :
    (fetchFromMySQL keyword w).1 =
      match w.mysql ("%" ++ keyword ++ "%") with
      | QueryOutcome.failed => none
      | QueryOutcome.rows scans iterErr =>
        if iterErr then none else some (scanRows scans Slice.nil) := by
  unfold fetchFromMySQL mysqlQuery
  cases h : w.mysql ("%" ++ keyword ++ "%") with
  | failed => simp
  | rows scans iterErr => cases iterErr <;> simp

theorem fetchFromMySQL_fst_congr (keyword : String) (w w1 : World F)
    (h : w1.mysql = w.mysql) :
    (fetchFromMySQL keyword w1).1 = (fetchFromMySQL keyword w).1 := by
  rw [fetchFromMySQL_fst, fetchFromMySQL_fst, h]

theorem fetchMetadataFromMongo_eq (productID : Int) (w : World F) :
    fetchMetadataFromMongo productID w =
      (match w.mongo productID with
        | FindOneOutcome.doc reviews => some reviews
        | _ => none,
       { w with calls := w.calls ++ [Call.mongoFindOne "product_reviews" productID] }) := by
  unfold fetchMetadataFromMongo mongoFindOne World.record
  cases h : w.mongo productID <;> simp

theorem attachReviews_eq (ps : List (Product F)) (w : World F) :
    attachReviews ps w =
      (ps.map (enriched w.mongo), { w with calls := w.calls ++ lookups ps }) := by
  induction ps generalizing w with
  | nil => simp [attachReviews, lookups]
  | cons p rest ih =>
    simp only [attachReviews, fetchMetadataFromMongo_eq, ih, List.map_cons, lookups]
    refine Prod.ext ?_ ?_
    · simp only [enriched, reviewsOf]
      cases h : w.mongo p.ID <;> simp
    · simp

theorem searchHandler_empty (enc : Encoders F) (c : Context) (w : World F)
    (hk : c.Query "q" = "") :
    searchHandler enc c w =
      (Response.JSON StatusBadRequest (Obj.H "error" "Missing search keyword"), w) := by
  simp [searchHandler, hk]

theorem searchHandler_hit (enc : Encoders F) (c : Context) (w : World F) (v : String)
    (hk : c.Query "q" ≠ "")
    (hit : (rdbGet (cacheKey (c.Query "q")) w).1 = GetOutcome.value v) :
    searchHandler enc c w =
      (Response.Data StatusOK "application/json" v, (rdbGet (cacheKey (c.Query "q")) w).2) := by
  rcases h : rdbGet (cacheKey (c.Query "q")) w with ⟨o, w1⟩
  rw [h] at hit
  simp only at hit
  subst hit
  simp [searchHandler, hk, h]

theorem searchHandler_catalog_failed (enc : Encoders F) (c : Context) (w : World F)
    (hk : c.Query "q" ≠ "")
    (hmiss : ∀ v, (rdbGet (cacheKey (c.Query "q")) w).1 ≠ GetOutcome.value v)
    (herr : (fetchFromMySQL (c.Query "q") w).1 = none) :
    searchHandler enc c w =
      (Response.JSON StatusInternalServerError (Obj.H "error" "Database error"),
       afterCatalog (c.Query "q") w) := by
  rcases h : rdbGet (cacheKey (c.Query "q")) w with ⟨o, w1⟩
  have hw1 := rdbGet_snd (cacheKey (c.Query "q")) w
  rw [h] at hmiss hw1
  simp only at hmiss hw1
  rcases h2 : fetchFromMySQL (c.Query "q") w1 with ⟨r, w2⟩
  have hr := fetchFromMySQL_fst_congr (c.Query "q") w w1 (by rw [hw1])
  have hw2 := fetchFromMySQL_snd (c.Query "q") w1
  rw [h2] at hr hw2
  simp only at hr hw2
  rw [herr] at hr
  subst hr hw2 hw1
  cases o with
  | value v => exact absurd rfl (hmiss v)
  | redisNil => simp [searchHandler, hk, h, h2, afterCatalog]
  | failed => simp [searchHandler, hk, h, h2, afterCatalog]

theorem searchHandler_computed (enc : Encoders F) (c : Context) (w : World F)
    (cs : Slice (Product F)) (hk : c.Query "q" ≠ "")
    (hmiss : ∀ v, (rdbGet (cacheKey (c.Query "q")) w).1 ≠ GetOutcome.value v)
    (hcat : (fetchFromMySQL (c.Query "q") w).1 = some cs) :
    searchHandler enc c w =
      (Response.JSON StatusOK (Obj.products (served w.mongo cs)),
       rdbSet (cacheKey (c.Query "q")) ((jsonMarshal enc (served w.mongo cs)).getD "")
         (10 * Minute)
         { afterCatalog (c.Query "q") w with
           calls := (afterCatalog (c.Query "q") w).calls ++ lookups cs.toList }) := by
  rcases h : rdbGet (cacheKey (c.Query "q")) w with ⟨o, w1⟩
  have hw1 := rdbGet_snd (cacheKey (c.Query "q")) w
  rw [h] at hmiss hw1
  simp only at hmiss hw1
  rcases h2 : fetchFromMySQL (c.Query "q") w1 with ⟨r, w2⟩
  have hr := fetchFromMySQL_fst_congr (c.Query "q") w w1 (by rw [hw1])
  have hw2 := fetchFromMySQL_snd (c.Query "q") w1
  rw [h2] at hr hw2
  simp only at hr hw2
  rw [hcat] at hr
  subst hr hw2 hw1
  cases o with
  | value v => exact absurd rfl (hmiss v)
  | redisNil => simp [searchHandler, hk, h, h2, afterCatalog, attachReviews_eq, served]
  | failed => simp [searchHandler, hk, h, h2, afterCatalog, attachReviews_eq, served]

theorem cacheKey_inj (k1 k2 : String) (h : cacheKey k1 = cacheKey k2) : k1 = k2 := by
  unfold cacheKey at h
  have hd := congrArg String.data h
  simp only [String.data_append, List.append_cancel_left_eq] at hd
  exact String.ext hd

theorem rdbSet_calls (key value : String) (expiration : Nat) (w : World F) :
    (rdbSet key value expiration w).calls =
      w.calls ++ [Call.redisSet key value expiration] := by
  unfold rdbSet World.record
  split <;> rfl

theorem rdbSet_redisFaults (key value : String) (expiration : Nat) (w : World F) :
    (rdbSet key value expiration w).redisFaults = w.redisFaults.tail := by
  unfold rdbSet World.record
  split <;> rfl

theorem rdbSet_mysql (key value : String) (expiration : Nat) (w : World F) :
    (rdbSet key value expiration w).mysql = w.mysql := by
  unfold rdbSet World.record
  split <;> rfl

theorem rdbSet_mongo (key value : String) (expiration : Nat) (w : World F) :
    (rdbSet key value expiration w).mongo = w.mongo := by
  unfold rdbSet World.record
  split <;> rfl

theorem rdbSet_redisStore (key value : String) (expiration : Nat) (w : World F) :
    (rdbSet key value expiration w).redisStore =
      if w.redisFails then w.redisStore
      else fun k => if k = key then some value else w.redisStore k := by
  unfold rdbSet World.record
  split <;> rfl

theorem rdbSet_redisStore_of_ne (key value : String) (expiration : Nat) (w : World F)
    (k : String) (hne : k ≠ key) :
    (rdbSet key value expiration w).redisStore k = w.redisStore k := by
  unfold rdbSet World.record
  split <;> simp [hne]

/-- Whatever path a request takes, entries under other keys stay as they were. -/
theorem searchHandler_redisStore_of_ne (enc : Encoders F) (c : Context) (w : World F)
    (k : String) (hne : k ≠ cacheKey (c.Query "q")) :
    (searchHandler enc c w).2.redisStore k = w.redisStore k := by
  by_cases hk : c.Query "q" = ""
  · rw [searchHandler_empty enc c w hk]
  · by_cases hhit : ∃ v, (rdbGet (cacheKey (c.Query "q")) w).1 = GetOutcome.value v
    · obtain ⟨v, hv⟩ := hhit
      rw [searchHandler_hit enc c w v hk hv, rdbGet_snd]
    · have hmiss : ∀ v, (rdbGet (cacheKey (c.Query "q")) w).1 ≠ GetOutcome.value v :=
        fun v hv => hhit ⟨v, hv⟩
      cases hcat : (fetchFromMySQL (c.Query "q") w).1 with
      | none => rw [searchHandler_catalog_failed enc c w hk hmiss hcat]; rfl
      | some cs =>
        rw [searchHandler_computed enc c w cs hk hmiss hcat]
        simp only
        rw [rdbSet_redisStore_of_ne _ _ _ _ _ hne]
        rfl

end Effects

section Enrichment

variable {F : Type}

theorem served_toList (mongo : Int → FindOneOutcome) (cs : Slice (Product F)) :
    (served mongo cs).toList = cs.toList.map (enriched mongo) := by
  cases cs <;> simp [served, Slice.withElems, Slice.toList]

theorem served_len (mongo : Int → FindOneOutcome) (cs : Slice (Product F)) :
    (served mongo cs).len = cs.len := by
  simp [Slice.len, served_toList]

/-- With a cold or failing cache the response is a function of the catalog and
metadata stores alone. -/
theorem searchHandler_miss_response (enc : Encoders F) (c : Context) (w : World F)
    (hk : c.Query "q" ≠ "")
    (hmiss : ∀ v, (rdbGet (cacheKey (c.Query "q")) w).1 ≠ GetOutcome.value v) :
    (searchHandler enc c w).1 =
      match (fetchFromMySQL (c.Query "q") w).1 with
      | none => Response.JSON StatusInternalServerError (Obj.H "error" "Database error")
      | some cs => Response.JSON StatusOK (Obj.products (served w.mongo cs)) := by
  cases hcat : (fetchFromMySQL (c.Query "q") w).1 with
  | none => rw [searchHandler_catalog_failed enc c w hk hmiss hcat]
  | some cs => rw [searchHandler_computed enc c w cs hk hmiss hcat]

theorem lookups_length (cs : List (Product F)) : (lookups cs).length = cs.length := by
  simp [lookups]

theorem countP_isMongoFindOne_lookups (cs : List (Product F)) :
    (lookups cs).countP Call.isMongoFindOne = cs.length := by
  induction cs with
  | nil => rfl
  | cons p rest ih =>
    simp only [lookups, List.map_cons, List.length_cons] at ih ⊢
    rw [List.countP_cons_of_pos _ _ (by rfl), ih]

theorem countP_isRedisGet_lookups (cs : List (Product F)) :
    (lookups cs).countP Call.isRedisGet = 0 := by
  induction cs with
  | nil => rfl
  | cons p rest ih =>
    simp only [lookups, List.map_cons] at ih ⊢
    rw [List.countP_cons_of_neg _ _ (by simp [Call.isRedisGet]), ih]

theorem countP_isMysqlQuery_lookups (cs : List (Product F)) :
    (lookups cs).countP Call.isMysqlQuery = 0 := by
  induction cs with
  | nil => rfl
  | cons p rest ih =>
    simp only [lookups, List.map_cons] at ih ⊢
    rw [List.countP_cons_of_neg _ _ (by simp [Call.isMysqlQuery]), ih]

theorem countP_isRedisSet_lookups (cs : List (Product F)) :
    (lookups cs).countP Call.isRedisSet = 0 := by
  induction cs with
  | nil => rfl
  | cons p rest ih =>
    simp only [lookups, List.map_cons] at ih ⊢
    rw [List.countP_cons_of_neg _ _ (by simp [Call.isRedisSet]), ih]

theorem mem_lookups_ne_redisSet (cs : List (Product F)) (key value : String) (ttl : Nat) :
    Call.redisSet key value ttl ∉ lookups cs := by
  simp [lookups]

/-- The backend calls of a request that computes its answer. -/
theorem searchHandler_computed_calls (enc : Encoders F) (c : Context) (w : World F)
    (cs : Slice (Product F)) (hk : c.Query "q" ≠ "")
    (hmiss : ∀ v, (rdbGet (cacheKey (c.Query "q")) w).1 ≠ GetOutcome.value v)
    (hcat : (fetchFromMySQL (c.Query "q") w).1 = some cs) :
    (searchHandler enc c w).2.calls =
      w.calls ++ ([Call.redisGet ("search:" ++ c.Query "q"),
        Call.mysqlQuery fetchFromMySQL.query ("%" ++ c.Query "q" ++ "%")] ++
        lookups cs.toList ++
        [Call.redisSet ("search:" ++ c.Query "q")
          ((jsonMarshal enc (served w.mongo cs)).getD "") (10 * Minute)]) := by
  rw [searchHandler_computed enc c w cs hk hmiss hcat]
  simp [rdbSet_calls, afterCatalog, cacheKey]

theorem rdbGet_value_iff (key : String) (w : World F) (v : String) :
    (rdbGet key w).1 = GetOutcome.value v ↔
      w.redisFails = false ∧ w.redisStore key = some v := by
  rw [rdbGet_fst]
  cases hf : w.redisFails <;> cases hs : w.redisStore key <;> simp

theorem rdbGet_miss_of_absent (key : String) (w : World F) (h : w.redisStore key = none)
    (v : String) : (rdbGet key w).1 ≠ GetOutcome.value v := by
  rw [Ne, rdbGet_value_iff, h]
  simp

theorem scanRows_nil_or_pos (scans : List (ScanOutcome F)) (acc : Slice (Product F))
    (h : acc = Slice.nil ∨ 0 < acc.len) :
    scanRows scans acc = Slice.nil ∨ 0 < (scanRows scans acc).len := by
  induction scans generalizing acc with
  | nil => exact h
  | cons r rest ih =>
    cases r with
    | scanErr => exact ih acc h
    | row id name category price =>
      refine ih _ (Or.inr ?_)
      cases acc <;> simp [Slice.append, Slice.len, Slice.toList]

/-- A candidate slice without elements, as `fetchFromMySQL` returns it, is the
nil slice: `append` is the only way the loop makes it non-nil. -/
theorem fetchFromMySQL_empty_is_nil (keyword : String) (w : World F) (cs : Slice (Product F))
    (hcat : (fetchFromMySQL keyword w).1 = some cs) (h0 : cs.len = 0) : cs = Slice.nil := by
  rw [fetchFromMySQL_fst] at hcat
  split at hcat
  · cases hcat
  · rename_i scans iterErr _
    cases iterErr
    · simp only [Bool.false_eq_true, if_false, Option.some.injEq] at hcat
      rcases scanRows_nil_or_pos scans Slice.nil (Or.inl rfl) with h | h
      · rw [← hcat, h]
      · rw [hcat] at h
        omega
    · simp at hcat

/-- Whenever the catalog query succeeds without a candidate, the body of the
200 response and the value written to the cache are the four bytes `null`. -/
theorem zero_candidates_body_is_null (enc : Encoders F) (c : Context) (w : World F)
    (cs : Slice (Product F)) (hk : c.Query "q" ≠ "")
    (hmiss : ∀ v, (rdbGet (cacheKey (c.Query "q")) w).1 ≠ GetOutcome.value v)
    (hcat : (fetchFromMySQL (c.Query "q") w).1 = some cs) (h0 : cs.len = 0) :
    (searchHandler enc c w).1 = Response.JSON StatusOK (Obj.products Slice.nil) ∧
    (searchHandler enc c w).1.body enc = "null" ∧
    (searchHandler enc c w).2.calls = w.calls ++
      [Call.redisGet ("search:" ++ c.Query "q"),
       Call.mysqlQuery fetchFromMySQL.query ("%" ++ c.Query "q" ++ "%"),
       Call.redisSet ("search:" ++ c.Query "q") "null" (10 * Minute)] := by
  have hnil := fetchFromMySQL_empty_is_nil (c.Query "q") w cs hcat h0
  subst hnil
  refine ⟨?_, ?_, ?_⟩
  · rw [searchHandler_computed enc c w Slice.nil hk hmiss hcat]
    rfl
  · rw [searchHandler_computed enc c w Slice.nil hk hmiss hcat]
    rfl
  · rw [searchHandler_computed_calls enc c w Slice.nil hk hmiss hcat]
    rfl

/-- Whenever the catalog query succeeds with at least one candidate and
`json.Marshal` succeeds, the body is a JSON array with one object per
candidate. -/
theorem some_candidates_body_is_array (enc : Encoders F) (c : Context) (w : World F)
    (cs : Slice (Product F)) (body : String) (hk : c.Query "q" ≠ "")
    (hmiss : ∀ v, (rdbGet (cacheKey (c.Query "q")) w).1 ≠ GetOutcome.value v)
    (hcat : (fetchFromMySQL (c.Query "q") w).1 = some cs) (hpos : 0 < cs.len)
    (hbody : jsonMarshal enc (served w.mongo cs) = some body) :
    (searchHandler enc c w).1.body enc = body ∧
    ∃ objs, marshalProductList enc (served w.mongo cs).toList = some objs ∧
      body = jsonArray objs := by
  constructor
  · rw [searchHandler_computed enc c w cs hk hmiss hcat]
    simp [Response.body, marshalObj, hbody]
  · cases cs with
    | nil => simp [Slice.len, Slice.toList] at hpos
    | mk ps =>
      simp only [served, Slice.withElems, jsonMarshal, Slice.toList] at hbody ⊢
      cases hm : marshalProductList enc (List.map (enriched w.mongo) ps) with
      | none => simp [hm] at hbody
      | some objs =>
        rw [hm] at hbody
        exact ⟨objs, rfl, (Option.some.inj hbody).symm⟩

theorem marshalProduct_of_price (enc : Encoders F) (priceText : F → String) (p : Product F)
    (h : enc.float p.Price = some (priceText p.Price)) :
    marshalProduct enc p = some (productObject enc priceText p) := by
  simp [marshalProduct, h, productObject, jsonArray]

theorem marshalProductList_of_prices (enc : Encoders F) (priceText : F → String)
    (ps : List (Product F))
    (h : ∀ p ∈ ps, enc.float p.Price = some (priceText p.Price)) :
    marshalProductList enc ps = some (ps.map (productObject enc priceText)) := by
  induction ps with
  | nil => rfl
  | cons p rest ih =>
    have hp := marshalProduct_of_price enc priceText p (h p (List.mem_cons_self p rest))
    have hrest := ih (fun q hq => h q (List.mem_cons_of_mem p hq))
    simp [marshalProductList, hp, hrest]

/-- When every candidate price has an encoding, `json.Marshal` succeeds on the
enriched list; for a non-nil list its result is the array of product objects. -/
theorem jsonMarshal_served (enc : Encoders F) (priceText : F → String)
    (mongo : Int → FindOneOutcome) (cs : Slice (Product F))
    (h : ∀ p ∈ cs.toList, enc.float p.Price = some (priceText p.Price)) :
    jsonMarshal enc (served mongo cs) =
      match cs with
      | Slice.nil => some "null"
      | Slice.mk _ => some ("[" ++ ",".intercalate
          ((served mongo cs).toList.map (productObject enc priceText)) ++ "]") := by
  cases cs with
  | nil => rfl
  | mk ps =>
    have hs : ∀ e ∈ ps.map (enriched mongo), enc.float e.Price = some (priceText e.Price) := by
      intro e he
      obtain ⟨p, hp, rfl⟩ := List.mem_map.mp he
      exact h p hp
    simp only [served, Slice.withElems, Slice.toList, jsonMarshal]
    rw [marshalProductList_of_prices enc priceText _ hs]
    rfl

end Enrichment

/-! ## The claims -/

/-- C1: for a non-empty keyword whose cache read succeeds with stored value
`v`, the handler answers `c.Data(200, "application/json", v)`: status 200 and
a body equal to `v`; the only backend call it adds is that cache read (no
catalog query, no metadata query, no cache write) and the cache is unchanged. -/
theorem cache_hit_replays_stored_value {F : Type} (enc : Encoders F) (c : Context)
    (w : World F) (v : String) (hk : c.Query "q" ≠ "")
    (hit : (rdbGet (cacheKey (c.Query "q")) w).1 = GetOutcome.value v) :
    (searchHandler enc c w).1 = Response.Data StatusOK "application/json" v ∧
    (searchHandler enc c w).1.status = 200 ∧
    (searchHandler enc c w).1.body enc = v ∧
    (searchHandler enc c w).2.calls = w.calls ++ [Call.redisGet ("search:" ++ c.Query "q")] ∧
    (searchHandler enc c w).2.redisStore = w.redisStore := by
  rw [searchHandler_hit enc c w v hk hit, rdbGet_snd]
  exact ⟨rfl, rfl, rfl, rfl, rfl⟩

/-- Witness for C1: `q=phone` against a cache that holds an entry for it. -/
theorem cache_hit_replays_stored_value_witness :
    phoneCtx.Query "q" ≠ "" ∧
    (rdbGet (cacheKey (phoneCtx.Query "q")) warmWorld).1 = GetOutcome.value "[\"cached\"]" ∧
    (searchHandler sampleEnc phoneCtx warmWorld).1.status = 200 ∧
    (searchHandler sampleEnc phoneCtx warmWorld).1.body sampleEnc = "[\"cached\"]" ∧
    (searchHandler sampleEnc phoneCtx warmWorld).2.calls = [Call.redisGet "search:phone"] :=
  have h := cache_hit_replays_stored_value sampleEnc phoneCtx warmWorld "[\"cached\"]"
    (by decide) (by decide)
  ⟨by decide, by decide, h.2.1, h.2.2.1, h.2.2.2.1⟩

/-- C2: for a non-empty keyword whose cache read does not hit, a catalog query
that returns an error makes the handler answer
`c.JSON(500, gin.H("error": "Database error"))`; the backend calls it adds are
the cache read and the catalog query only, so there is no metadata lookup and
no cache write, and the cache is unchanged. -/
theorem catalog_error_is_server_error {F : Type} (enc : Encoders F) (c : Context)
    (w : World F) (hk : c.Query "q" ≠ "")
    (hmiss : ∀ v, (rdbGet (cacheKey (c.Query "q")) w).1 ≠ GetOutcome.value v)
    (herr : (fetchFromMySQL (c.Query "q") w).1 = none) :
    (searchHandler enc c w).1 =
      Response.JSON StatusInternalServerError (Obj.H "error" "Database error") ∧
    (searchHandler enc c w).1.status = 500 ∧
    (searchHandler enc c w).2.calls = w.calls ++
      [Call.redisGet ("search:" ++ c.Query "q"),
       Call.mysqlQuery fetchFromMySQL.query ("%" ++ c.Query "q" ++ "%")] ∧
    (∀ call ∈ (searchHandler enc c w).2.calls.drop w.calls.length,
      (∀ coll id, call ≠ Call.mongoFindOne coll id) ∧
      (∀ key value ttl, call ≠ Call.redisSet key value ttl)) ∧
    (searchHandler enc c w).2.redisStore = w.redisStore := by
  rw [searchHandler_catalog_failed enc c w hk hmiss herr]
  refine ⟨rfl, rfl, rfl, ?_, rfl⟩
  intro call hc
  simp only [afterCatalog, List.drop_left, List.mem_cons, List.mem_singleton,
    List.not_mem_nil, or_false] at hc
  rcases hc with rfl | rfl <;>
    exact ⟨fun _ _ h => Call.noConfusion h, fun _ _ _ h => Call.noConfusion h⟩

/-- Witness for C2: `q=phone` with a cold cache and the catalog unreachable. -/
theorem catalog_error_is_server_error_witness :
    phoneCtx.Query "q" ≠ "" ∧
    (∀ v, (rdbGet (cacheKey (phoneCtx.Query "q")) catalogDownWorld).1 ≠ GetOutcome.value v) ∧
    (fetchFromMySQL (phoneCtx.Query "q") catalogDownWorld).1 = none ∧
    (searchHandler sampleEnc phoneCtx catalogDownWorld).1.status = 500 ∧
    (searchHandler sampleEnc phoneCtx catalogDownWorld).1.body sampleEnc =
      "\x7b\"error\":\"Database error\"\x7d" ∧
    (searchHandler sampleEnc phoneCtx catalogDownWorld).2.calls =
      [Call.redisGet "search:phone", Call.mysqlQuery fetchFromMySQL.query "%phone%"] :=
  have hmiss : ∀ v, (rdbGet (cacheKey (phoneCtx.Query "q")) catalogDownWorld).1
      ≠ GetOutcome.value v := fun v h => by cases h
  have h := catalog_error_is_server_error sampleEnc phoneCtx catalogDownWorld
    (by decide) hmiss (by decide)
  ⟨by decide, hmiss, by decide, h.2.1, by decide, h.2.2.1⟩

/-- C5: when the parameter `q` is missing or is the empty string, the handler
answers `c.JSON(400, gin.H("error": "Missing search keyword"))` and leaves the
world exactly as it was: no cache read, no catalog query, no metadata lookup,
no cache write. -/
theorem empty_keyword_is_client_error {F : Type} (enc : Encoders F) (c : Context)
    (w : World F) (hq : c.params.lookup "q" = none ∨ c.params.lookup "q" = some "") :
    c.Query "q" = "" ∧
    (searchHandler enc c w).1 =
      Response.JSON StatusBadRequest (Obj.H "error" "Missing search keyword") ∧
    (searchHandler enc c w).1.status = 400 ∧
    (searchHandler enc c w).2.calls = w.calls ∧
    (searchHandler enc c w).2 = w := by
  have hk : c.Query "q" = "" := by
    unfold Context.Query
    rcases hq with h | h <;> rw [h]
  rw [searchHandler_empty enc c w hk]
  exact ⟨hk, rfl, rfl, rfl, rfl⟩

/-- Witness for C5: a request without the parameter `q`. -/
theorem empty_keyword_is_client_error_witness :
    (bareCtx.params.lookup "q" = none ∨ bareCtx.params.lookup "q" = some "") ∧
    (searchHandler sampleEnc bareCtx sampleWorld).1.status = 400 ∧
    (searchHandler sampleEnc bareCtx sampleWorld).2.calls = [] :=
  have h := empty_keyword_is_client_error sampleEnc bareCtx sampleWorld (Or.inl (by decide))
  ⟨Or.inl (by decide), h.2.2.1, h.2.2.2.1⟩

/-- C6, as stated, fails: the keyword of one space is empty after trimming,
yet the handler does not answer 400; it answers 200 after a cache read, a
catalog query and a cache write. -/
theorem blank_keyword_not_rejected :
    trimSpace (blankCtx.Query "q") = "" ∧
    (searchHandler sampleEnc blankCtx sampleWorld).1.status = 200 ∧
    (searchHandler sampleEnc blankCtx sampleWorld).1.status ≠ 400 ∧
    (searchHandler sampleEnc blankCtx sampleWorld).2.calls =
      [Call.redisGet "search: ", Call.mysqlQuery fetchFromMySQL.query "% %",
       Call.redisSet "search: " "null" (10 * Minute)] := by
  decide

/-- C6, amended: the handler compares the keyword with `""` and never trims
it.  It answers 400 without touching a backend exactly when the keyword is the
empty string; any other keyword, white space included, is used as it is, and
the first backend call is the cache read of `"search:"` followed by it. -/
theorem only_empty_keyword_rejected {F : Type} (enc : Encoders F) (c : Context)
    (w : World F) :
    ((searchHandler enc c w).1.status = 400 ↔ c.Query "q" = "") ∧
    (c.Query "q" = "" → (searchHandler enc c w).2 = w) ∧
    (c.Query "q" ≠ "" → ∃ rest, (searchHandler enc c w).2.calls =
      w.calls ++ Call.redisGet ("search:" ++ c.Query "q") :: rest) := by
  by_cases hk : c.Query "q" = ""
  · rw [searchHandler_empty enc c w hk]
    exact ⟨⟨fun _ => hk, fun _ => rfl⟩, fun _ => rfl, fun h => absurd hk h⟩
  · refine ⟨?_, fun h => absurd h hk, fun _ => ?_⟩
    · refine ⟨fun h => ?_, fun h => absurd h hk⟩
      exfalso
      by_cases hhit : ∃ v, (rdbGet (cacheKey (c.Query "q")) w).1 = GetOutcome.value v
      · obtain ⟨v, hv⟩ := hhit
        rw [searchHandler_hit enc c w v hk hv] at h
        simp [Response.status, StatusOK] at h
      · have hmiss : ∀ v, (rdbGet (cacheKey (c.Query "q")) w).1 ≠ GetOutcome.value v :=
          fun v hv => hhit ⟨v, hv⟩
        cases hcat : (fetchFromMySQL (c.Query "q") w).1 with
        | none =>
          rw [searchHandler_catalog_failed enc c w hk hmiss hcat] at h
          simp [Response.status, StatusInternalServerError] at h
        | some cs =>
          rw [searchHandler_computed enc c w cs hk hmiss hcat] at h
          simp [Response.status, StatusOK] at h
    · by_cases hhit : ∃ v, (rdbGet (cacheKey (c.Query "q")) w).1 = GetOutcome.value v
      · obtain ⟨v, hv⟩ := hhit
        rw [searchHandler_hit enc c w v hk hv, rdbGet_snd]
        exact ⟨[], rfl⟩
      · have hmiss : ∀ v, (rdbGet (cacheKey (c.Query "q")) w).1 ≠ GetOutcome.value v :=
          fun v hv => hhit ⟨v, hv⟩
        cases hcat : (fetchFromMySQL (c.Query "q") w).1 with
        | none =>
          rw [searchHandler_catalog_failed enc c w hk hmiss hcat]
          exact ⟨_, rfl⟩
        | some cs =>
          rw [searchHandler_computed enc c w cs hk hmiss hcat]
          refine ⟨Call.mysqlQuery fetchFromMySQL.query ("%" ++ c.Query "q" ++ "%") ::
            (lookups cs.toList ++ [Call.redisSet (cacheKey (c.Query "q"))
              ((jsonMarshal enc (served w.mongo cs)).getD "") (10 * Minute)]), ?_⟩
          simp [rdbSet_calls, afterCatalog, cacheKey]

/-- Witness for C6, amended: the keyword of one space reaches the cache. -/
theorem only_empty_keyword_rejected_witness :
    blankCtx.Query "q" ≠ "" ∧
    ∃ rest, (searchHandler sampleEnc blankCtx sampleWorld).2.calls =
      sampleWorld.calls ++ Call.redisGet ("search:" ++ blankCtx.Query "q") :: rest :=
  ⟨by decide, (only_empty_keyword_rejected sampleEnc blankCtx sampleWorld).2.2 (by decide)⟩

/-- C10: the cache key `"search:" ++ k` is an injective function of the exact
keyword: two keywords have the same key if and only if they are equal (no case
folding, no trimming).  A request for one keyword leaves the cache entry of
every other keyword untouched, so a later hit for another keyword cannot
replay what this request stored. -/
theorem cache_key_injective {F : Type} (enc : Encoders F) (c : Context) (w : World F)
    (k1 k2 : String) :
    cacheKey k1 = "search:" ++ k1 ∧
    (cacheKey k1 = cacheKey k2 ↔ k1 = k2) ∧
    (k2 ≠ c.Query "q" →
      (searchHandler enc c w).2.redisStore (cacheKey k2) = w.redisStore (cacheKey k2)) := by
  refine ⟨rfl, ⟨cacheKey_inj k1 k2, fun h => by rw [h]⟩, fun hne => ?_⟩
  exact searchHandler_redisStore_of_ne enc c w _ (fun h => hne (cacheKey_inj _ _ h))

/-- Witness for C10: `Phone` and `phone` have different keys, and a request
for `phone` leaves the entry of `Phone` alone. -/
theorem cache_key_injective_witness :
    "Phone" ≠ phoneCtx.Query "q" ∧
    ¬ (cacheKey "phone" = cacheKey "Phone") ∧
    (searchHandler sampleEnc phoneCtx sampleWorld).2.redisStore (cacheKey "Phone") =
      sampleWorld.redisStore (cacheKey "Phone") :=
  have h := cache_key_injective sampleEnc phoneCtx sampleWorld "phone" "Phone"
  ⟨by decide, fun e => absurd (h.2.1.mp e) (by decide), h.2.2 (by decide)⟩

/-- C3: when the catalog returns the candidates `cs`, the handler answers 200
with a list `es` of the same length; at every position the entry of `es` has
the id, name, category and price of the candidate at that position, its
reviews are those of the metadata document when the lookup for that id
succeeds, and the nil (empty) slice when the lookup finds no document or fails.
No candidate is dropped, moved or changed by the outcome for another one. -/
theorem enrichment_keeps_every_candidate {F : Type} (enc : Encoders F) (c : Context)
    (w : World F) (cs : Slice (Product F)) (hk : c.Query "q" ≠ "")
    (hmiss : ∀ v, (rdbGet (cacheKey (c.Query "q")) w).1 ≠ GetOutcome.value v)
    (hcat : (fetchFromMySQL (c.Query "q") w).1 = some cs) :
    ∃ es : Slice (Product F),
      (searchHandler enc c w).1 = Response.JSON StatusOK (Obj.products es) ∧
      es.len = cs.len ∧
      ∀ (i : Nat) (p : Product F), cs.toList[i]? = some p →
        ∃ e, es.toList[i]? = some e ∧
          e.ID = p.ID ∧ e.Name = p.Name ∧ e.Category = p.Category ∧ e.Price = p.Price ∧
          (∀ reviews, w.mongo p.ID = FindOneOutcome.doc reviews → e.Reviews = reviews) ∧
          (w.mongo p.ID = FindOneOutcome.noDocuments ∨ w.mongo p.ID = FindOneOutcome.failed →
            e.Reviews = Slice.nil ∧ e.Reviews.len = 0) := by
  refine ⟨served w.mongo cs, ?_, served_len w.mongo cs, ?_⟩
  · rw [searchHandler_computed enc c w cs hk hmiss hcat]
  · intro i p hp
    refine ⟨enriched w.mongo p, ?_, rfl, rfl, rfl, rfl, ?_, ?_⟩
    · rw [served_toList, List.getElem?_map, hp]
      rfl
    · intro reviews h
      simp [enriched, reviewsOf, h]
    · intro h
      rcases h with h | h <;> simp [enriched, reviewsOf, h, Slice.len, Slice.toList]

/-- Witness for C3: the catalog returns products 1 and 2, the metadata store
has `great!` for product 1 and no document for product 2. -/
theorem enrichment_keeps_every_candidate_witness :
    (phoneCtx.Query "q" ≠ "" ∧
     (∀ v, (rdbGet (cacheKey (phoneCtx.Query "q")) sampleWorld).1 ≠ GetOutcome.value v) ∧
     (fetchFromMySQL (phoneCtx.Query "q") sampleWorld).1 = some (Slice.mk
       [{ ID := 1, Name := "Smartphone X", Category := "electronics", Price := 500,
          Reviews := Slice.nil },
        { ID := 2, Name := "Phone Case", Category := "accessories", Price := 10,
          Reviews := Slice.nil }])) ∧
    (searchHandler sampleEnc phoneCtx sampleWorld).1 = Response.JSON StatusOK (Obj.products
      (Slice.mk
       [{ ID := 1, Name := "Smartphone X", Category := "electronics", Price := 500,
          Reviews := Slice.mk ["great!"] },
        { ID := 2, Name := "Phone Case", Category := "accessories", Price := 10,
          Reviews := Slice.nil }])) ∧
    ∃ es : Slice (Product Nat),
      (searchHandler sampleEnc phoneCtx sampleWorld).1 = Response.JSON StatusOK (Obj.products es) ∧
      es.len = 2 :=
  have hmiss : ∀ v, (rdbGet (cacheKey (phoneCtx.Query "q")) sampleWorld).1
      ≠ GetOutcome.value v := fun v h => by cases h
  have h := enrichment_keeps_every_candidate sampleEnc phoneCtx sampleWorld
    (Slice.mk
       [{ ID := 1, Name := "Smartphone X", Category := "electronics", Price := 500,
          Reviews := Slice.nil },
        { ID := 2, Name := "Phone Case", Category := "accessories", Price := 10,
          Reviews := Slice.nil }]) (by decide) hmiss (by decide)
  ⟨⟨by decide, hmiss, by decide⟩, by decide, h.elim fun es hes => ⟨es, hes.1, hes.2.1⟩⟩

/-- C4: take two worlds with the same catalog and metadata stores and a
non-empty keyword.  If the cache read fails with a backend error in the first
and reports the key absent in the second, the handler makes the same response
call in both, hence the same status and the same body.  Nothing is assumed
about the Redis commands that follow, so this holds whether the later cache
write succeeds or fails in either world. -/
theorem cache_failure_never_surfaces {F : Type} (enc : Encoders F) (c : Context)
    (w1 w2 : World F) (hk : c.Query "q" ≠ "")
    (hmysql : w1.mysql = w2.mysql) (hmongo : w1.mongo = w2.mongo)
    (hfail : (rdbGet (cacheKey (c.Query "q")) w1).1 = GetOutcome.failed)
    (hcold : (rdbGet (cacheKey (c.Query "q")) w2).1 = GetOutcome.redisNil) :
    (searchHandler enc c w1).1 = (searchHandler enc c w2).1 ∧
    (searchHandler enc c w1).1.status = (searchHandler enc c w2).1.status ∧
    (searchHandler enc c w1).1.body enc = (searchHandler enc c w2).1.body enc := by
  have h : (searchHandler enc c w1).1 = (searchHandler enc c w2).1 := by
    rw [searchHandler_miss_response enc c w1 hk (by rw [hfail]; intro v hv; cases hv),
      searchHandler_miss_response enc c w2 hk (by rw [hcold]; intro v hv; cases hv),
      fetchFromMySQL_fst_congr (c.Query "q") w2 w1 hmysql, hmongo]
  exact ⟨h, by rw [h], by rw [h]⟩

/-- Witness for C4: Redis down for both the read and the write, against a cold
and healthy Redis. -/
theorem cache_failure_never_surfaces_witness :
    (phoneCtx.Query "q" ≠ "" ∧
     (rdbGet (cacheKey (phoneCtx.Query "q")) redisDownWorld).1 = GetOutcome.failed ∧
     (rdbGet (cacheKey (phoneCtx.Query "q")) sampleWorld).1 = GetOutcome.redisNil) ∧
    (searchHandler sampleEnc phoneCtx redisDownWorld).2.redisStore "search:phone" = none ∧
    (searchHandler sampleEnc phoneCtx sampleWorld).2.redisStore "search:phone" ≠ none ∧
    (searchHandler sampleEnc phoneCtx redisDownWorld).1 =
      (searchHandler sampleEnc phoneCtx sampleWorld).1 :=
  ⟨⟨by decide, by decide, by decide⟩, by decide, by decide,
    (cache_failure_never_surfaces sampleEnc phoneCtx redisDownWorld sampleWorld
      (by decide) rfl rfl (by decide) (by decide)).1⟩

/-- C9 at the failing input: for a keyword that matches no row, with a cold
cache, the handler answers 200 with the body `null`, not the empty array `[]`,
whatever the leaf encoders are, and it stores `null` in the cache for ten
minutes. -/
theorem no_match_body_is_null (enc : Encoders Nat) :
    (fetchFromMySQL (noMatchCtx.Query "q") sampleWorld).1 = some Slice.nil ∧
    (searchHandler enc noMatchCtx sampleWorld).1 =
      Response.JSON StatusOK (Obj.products Slice.nil) ∧
    (searchHandler enc noMatchCtx sampleWorld).1.status = 200 ∧
    (searchHandler enc noMatchCtx sampleWorld).1.body enc = "null" ∧
    (searchHandler enc noMatchCtx sampleWorld).1.body enc ≠ "[]" ∧
    (searchHandler enc noMatchCtx sampleWorld).2.calls =
      [Call.redisGet "search:zzz", Call.mysqlQuery fetchFromMySQL.query "%zzz%",
       Call.redisSet "search:zzz" "null" (10 * Minute)] := by
  have hk : noMatchCtx.Query "q" ≠ "" := by decide
  have hmiss : ∀ v, (rdbGet (cacheKey (noMatchCtx.Query "q")) sampleWorld).1
      ≠ GetOutcome.value v := fun v h => by cases h
  have hcat : (fetchFromMySQL (noMatchCtx.Query "q") sampleWorld).1 = some Slice.nil := by
    decide
  rw [searchHandler_computed enc noMatchCtx sampleWorld Slice.nil hk hmiss hcat]
  have hbody : Response.body enc
      (Response.JSON StatusOK (Obj.products (served sampleWorld.mongo Slice.nil))) = "null" := rfl
  refine ⟨hcat, rfl, rfl, hbody, ?_, ?_⟩
  · simp only [hbody]
    decide
  · rw [rdbSet_calls]
    rfl

/-- C7, as stated, fails: `json.Marshal` has no result for a NaN price and the
handler discards its error.  For `q=phone`, a cold cache and a catalog whose
one candidate has a NaN price, the handler answers with the one-element
enriched list, that list has no JSON serialization, and the value written to
the cache is the empty byte string. -/
theorem marshal_failure_caches_empty_value :
    phoneCtx.Query "q" ≠ "" ∧
    (rdbGet (cacheKey (phoneCtx.Query "q")) nanWorld).1 = GetOutcome.redisNil ∧
    (fetchFromMySQL (phoneCtx.Query "q") nanWorld).1 = some (Slice.mk
      [{ ID := 7, Name := "Phone Stand", Category := "accessories",
         Price := SamplePrice.nan, Reviews := Slice.nil }]) ∧
    (searchHandler nanEnc phoneCtx nanWorld).1 = Response.JSON StatusOK (Obj.products (Slice.mk
      [{ ID := 7, Name := "Phone Stand", Category := "accessories",
         Price := SamplePrice.nan, Reviews := Slice.nil }])) ∧
    jsonMarshal nanEnc (Slice.mk
      [{ ID := 7, Name := "Phone Stand", Category := "accessories",
         Price := SamplePrice.nan, Reviews := Slice.nil }]) = none ∧
    (searchHandler nanEnc phoneCtx nanWorld).2.calls =
      [Call.redisGet "search:phone",
       Call.mysqlQuery fetchFromMySQL.query "%phone%",
       Call.mongoFindOne "product_reviews" 7,
       Call.redisSet "search:phone" "" (10 * Minute)] ∧
    (searchHandler nanEnc phoneCtx nanWorld).2.redisStore "search:phone" = some "" := by
  decide

/-- C7, amended: for a non-empty keyword whose cache read does not hit and
whose catalog query returns the candidates `cs`, the handler answers 200 with
an enriched list `es`, and the backend calls it adds are, in this order: the
cache read of `"search:" ++ keyword`, the catalog query for the keyword, one
metadata lookup per candidate by its id in catalog order, and one cache write
under `"search:" ++ keyword` expiring after `10 * time.Minute` = 600 s.  When
every candidate price has an encoding `priceText`, `json.Marshal` succeeds on
`es`, the written value is its result and equals the response body, and for
one or more candidates it is the array, in catalog order, of the objects with
keys `id`, `name`, `category`, `price` and, when non-empty, `reviews`.
For every request whatever its path: at most one cache read, one catalog
query, one cache write, no more metadata lookups than candidates; a cache
write goes under the request's own key for ten minutes, and when `json.Marshal`
succeeds on the list the request answers with, its result is the value
written. -/
theorem backend_calls_of_request {F : Type} (enc : Encoders F) (c : Context) (w : World F) :
    (∀ cs : Slice (Product F), c.Query "q" ≠ "" →
      (∀ v, (rdbGet (cacheKey (c.Query "q")) w).1 ≠ GetOutcome.value v) →
      (fetchFromMySQL (c.Query "q") w).1 = some cs →
      ∃ es value,
        (searchHandler enc c w).1 = Response.JSON StatusOK (Obj.products es) ∧
        (searchHandler enc c w).2.calls = w.calls ++
          ([Call.redisGet ("search:" ++ c.Query "q"),
            Call.mysqlQuery fetchFromMySQL.query ("%" ++ c.Query "q" ++ "%")] ++
           cs.toList.map (fun p => Call.mongoFindOne "product_reviews" p.ID) ++
           [Call.redisSet ("search:" ++ c.Query "q") value (10 * Minute)]) ∧
        10 * Minute = 600 * 1000000000 ∧
        ∀ priceText : F → String,
          (∀ p ∈ cs.toList, enc.float p.Price = some (priceText p.Price)) →
          jsonMarshal enc es = some value ∧
          (searchHandler enc c w).1.body enc = value ∧
          (0 < cs.len → value =
            "[" ++ ",".intercalate (es.toList.map (fun e =>
              "\x7b\"id\":" ++ toString e.ID
                ++ ",\"name\":" ++ enc.string e.Name
                ++ ",\"category\":" ++ enc.string e.Category
                ++ ",\"price\":" ++ priceText e.Price
                ++ (if e.Reviews.len = 0 then ""
                    else ",\"reviews\":" ++
                      ("[" ++ ",".intercalate (e.Reviews.toList.map enc.string) ++ "]"))
                ++ "\x7d")) ++ "]")) ∧
    (∃ new, (searchHandler enc c w).2.calls = w.calls ++ new ∧
      new.countP Call.isRedisGet ≤ 1 ∧
      new.countP Call.isMysqlQuery ≤ 1 ∧
      new.countP Call.isRedisSet ≤ 1 ∧
      new.countP Call.isMongoFindOne ≤
        (match (fetchFromMySQL (c.Query "q") w).1 with
          | some cs => cs.len
          | none => 0) ∧
      ∀ key value ttl, Call.redisSet key value ttl ∈ new →
        key = "search:" ++ c.Query "q" ∧ ttl = 10 * Minute ∧
        ∃ es, (searchHandler enc c w).1 = Response.JSON StatusOK (Obj.products es) ∧
          ∀ b, jsonMarshal enc es = some b →
            value = b ∧ (searchHandler enc c w).1.body enc = b) := by
  constructor
  · intro cs hk hmiss hcat
    refine ⟨served w.mongo cs, (jsonMarshal enc (served w.mongo cs)).getD "", ?_,
      searchHandler_computed_calls enc c w cs hk hmiss hcat, by decide, ?_⟩
    · rw [searchHandler_computed enc c w cs hk hmiss hcat]
    · intro priceText hprice
      have hm := jsonMarshal_served enc priceText w.mongo cs hprice
      rw [searchHandler_computed enc c w cs hk hmiss hcat]
      cases cs with
      | nil =>
        refine ⟨by rw [hm]; rfl, by simp [Response.body, marshalObj, hm], fun h0 => ?_⟩
        simp [Slice.len, Slice.toList] at h0
      | mk ps =>
        refine ⟨by rw [hm]; rfl, by simp [Response.body, marshalObj, hm], fun _ => ?_⟩
        rw [hm]
        rfl
  · by_cases hk : c.Query "q" = ""
    · rw [searchHandler_empty enc c w hk]
      exact ⟨[], by simp, by simp, by simp, by simp, by simp, by simp⟩
    · by_cases hhit : ∃ v, (rdbGet (cacheKey (c.Query "q")) w).1 = GetOutcome.value v
      · obtain ⟨v, hv⟩ := hhit
        rw [searchHandler_hit enc c w v hk hv, rdbGet_snd]
        exact ⟨[Call.redisGet (cacheKey (c.Query "q"))], rfl,
          by simp [List.countP_cons, Call.isRedisGet], by simp [Call.isMysqlQuery],
          by simp [Call.isRedisSet], by simp [Call.isMongoFindOne], by simp⟩
      · have hmiss : ∀ v, (rdbGet (cacheKey (c.Query "q")) w).1 ≠ GetOutcome.value v :=
          fun v hv => hhit ⟨v, hv⟩
        cases hcat : (fetchFromMySQL (c.Query "q") w).1 with
        | none =>
          rw [searchHandler_catalog_failed enc c w hk hmiss hcat]
          exact ⟨[Call.redisGet (cacheKey (c.Query "q")),
            Call.mysqlQuery fetchFromMySQL.query ("%" ++ c.Query "q" ++ "%")], rfl,
            by simp [Call.isRedisGet], by simp [Call.isMysqlQuery],
            by simp [Call.isRedisSet], by simp [Call.isMongoFindOne], by simp⟩
        | some cs =>
          refine ⟨_, searchHandler_computed_calls enc c w cs hk hmiss hcat, ?_, ?_, ?_, ?_, ?_⟩
          · simp [List.countP_append, countP_isRedisGet_lookups, Call.isRedisGet]
          · simp [List.countP_append, countP_isMysqlQuery_lookups, Call.isMysqlQuery]
          · simp [List.countP_append, countP_isRedisSet_lookups, Call.isRedisSet]
          · simp [List.countP_append, countP_isMongoFindOne_lookups, Call.isMongoFindOne,
              Slice.len]
          · intro key value ttl hmem
            simp only [List.mem_append, List.mem_cons, List.mem_singleton,
              List.not_mem_nil, or_false] at hmem
            rcases hmem with (h | h) | h
            · rcases h with h | h <;> cases h
            · exact absurd h (mem_lookups_ne_redisSet _ _ _ _)
            · cases h
              refine ⟨rfl, rfl, served w.mongo cs, ?_, ?_⟩
              · rw [searchHandler_computed enc c w cs hk hmiss hcat]
              · intro b hb
                rw [searchHandler_computed enc c w cs hk hmiss hcat]
                simp [Response.body, marshalObj, hb]

/-- Witness for C7, amended: `q=phone` with a cold cache and two candidates;
the value written and the body are the same array of two objects. -/
theorem backend_calls_of_request_witness :
    (phoneCtx.Query "q" ≠ "" ∧
     (∀ v, (rdbGet (cacheKey (phoneCtx.Query "q")) sampleWorld).1 ≠ GetOutcome.value v) ∧
     (fetchFromMySQL (phoneCtx.Query "q") sampleWorld).1 = some (Slice.mk
       [{ ID := 1, Name := "Smartphone X", Category := "electronics", Price := 500,
          Reviews := Slice.nil },
        { ID := 2, Name := "Phone Case", Category := "accessories", Price := 10,
          Reviews := Slice.nil }])) ∧
    (searchHandler sampleEnc phoneCtx sampleWorld).2.calls =
      [Call.redisGet "search:phone",
       Call.mysqlQuery fetchFromMySQL.query "%phone%",
       Call.mongoFindOne "product_reviews" 1,
       Call.mongoFindOne "product_reviews" 2,
       Call.redisSet "search:phone"
         ("[\x7b\"id\":1,\"name\":\"Smartphone X\",\"category\":\"electronics\"," ++
          "\"price\":500,\"reviews\":[\"great!\"]\x7d," ++
          "\x7b\"id\":2,\"name\":\"Phone Case\",\"category\":\"accessories\"," ++
          "\"price\":10\x7d]") 600000000000] ∧
    (searchHandler sampleEnc phoneCtx sampleWorld).1.body sampleEnc =
      "[\x7b\"id\":1,\"name\":\"Smartphone X\",\"category\":\"electronics\"," ++
      "\"price\":500,\"reviews\":[\"great!\"]\x7d," ++
      "\x7b\"id\":2,\"name\":\"Phone Case\",\"category\":\"accessories\"," ++
      "\"price\":10\x7d]" ∧
    ∃ es value,
      (searchHandler sampleEnc phoneCtx sampleWorld).1 =
        Response.JSON StatusOK (Obj.products es) ∧
      jsonMarshal sampleEnc es = some value ∧
      (searchHandler sampleEnc phoneCtx sampleWorld).1.body sampleEnc = value :=
  have hmiss : ∀ v, (rdbGet (cacheKey (phoneCtx.Query "q")) sampleWorld).1
      ≠ GetOutcome.value v := fun v h => by cases h
  have h := (backend_calls_of_request sampleEnc phoneCtx sampleWorld).1
    (Slice.mk
       [{ ID := 1, Name := "Smartphone X", Category := "electronics", Price := 500,
          Reviews := Slice.nil },
        { ID := 2, Name := "Phone Case", Category := "accessories", Price := 10,
          Reviews := Slice.nil }]) (by decide) hmiss (by decide)
  ⟨⟨by decide, hmiss, by decide⟩, by rfl, by rfl,
    h.elim fun es h1 => h1.elim fun value h2 =>
      have h3 := h2.2.2.2 (fun n => toString n) (fun _ _ => rfl)
      ⟨es, value, h2.1, h3.1, h3.2.1⟩⟩

/-- C8: with the cache a key-to-bytes map that holds no entry for the keyword,
and catalog and metadata stores that do not change, two requests in a row for
the same non-empty keyword get the same body bytes, whichever Redis commands
fail.  When the cache holds `b` under the key after the first request (its
write succeeded) and the next read does not fail, then `b` is what the first
request wrote last, the second request is a cache hit answered with
`c.Data(200, "application/json", b)`, and its only backend call is the read. -/
theorem repeated_search_same_bytes {F : Type} (enc : Encoders F) (c : Context) (w : World F)
    (hk : c.Query "q" ≠ "") (hcold : w.redisStore (cacheKey (c.Query "q")) = none) :
    (searchHandler enc c w).1.body enc =
      (searchHandler enc c (searchHandler enc c w).2).1.body enc ∧
    ∀ b, (searchHandler enc c w).2.redisStore (cacheKey (c.Query "q")) = some b →
      (searchHandler enc c w).2.redisFails = false →
      (∃ pre, (searchHandler enc c w).2.calls =
        w.calls ++ pre ++ [Call.redisSet ("search:" ++ c.Query "q") b (10 * Minute)]) ∧
      (searchHandler enc c w).1.body enc = b ∧
      (searchHandler enc c (searchHandler enc c w).2).1 =
        Response.Data StatusOK "application/json" b ∧
      (searchHandler enc c (searchHandler enc c w).2).1.body enc = b ∧
      (searchHandler enc c (searchHandler enc c w).2).2.calls =
        (searchHandler enc c w).2.calls ++ [Call.redisGet ("search:" ++ c.Query "q")] := by
  have hmiss1 := rdbGet_miss_of_absent (cacheKey (c.Query "q")) w hcold
  cases hcat : (fetchFromMySQL (c.Query "q") w).1 with
  | none =>
    rw [searchHandler_catalog_failed enc c w hk hmiss1 hcat]
    have hcold2 : (afterCatalog (c.Query "q") w).redisStore (cacheKey (c.Query "q")) = none :=
      hcold
    constructor
    · have hmiss2 := rdbGet_miss_of_absent (cacheKey (c.Query "q")) _ hcold2
      have hcat2 : (fetchFromMySQL (c.Query "q") (afterCatalog (c.Query "q") w)).1 = none := by
        rw [fetchFromMySQL_fst_congr (c.Query "q") w (afterCatalog (c.Query "q") w) rfl, hcat]
      rw [searchHandler_catalog_failed enc c _ hk hmiss2 hcat2]
    · intro b hb
      simp only at hb
      rw [hcold2] at hb
      cases hb
  | some cs =>
    have hcalls := searchHandler_computed_calls enc c w cs hk hmiss1 hcat
    have h1 := searchHandler_computed enc c w cs hk hmiss1 hcat
    generalize hW0 : ({ afterCatalog (c.Query "q") w with
      calls := (afterCatalog (c.Query "q") w).calls ++ lookups cs.toList } : World F) = W0 at h1
    generalize hW : rdbSet (cacheKey (c.Query "q"))
      ((jsonMarshal enc (served w.mongo cs)).getD "") (10 * Minute) W0 = W at h1
    rw [h1] at hcalls ⊢
    simp only at hcalls ⊢
    have hmysql : W.mysql = w.mysql := by
      rw [← hW, rdbSet_mysql, ← hW0]
      rfl
    have hmongo : W.mongo = w.mongo := by
      rw [← hW, rdbSet_mongo, ← hW0]
      rfl
    have hstore : W.redisStore (cacheKey (c.Query "q")) = none ∨
        W.redisStore (cacheKey (c.Query "q")) =
          some ((jsonMarshal enc (served w.mongo cs)).getD "") := by
      rw [← hW, rdbSet_redisStore]
      split
      · left
        rw [← hW0]
        exact hcold
      · right
        simp
    have hbody : Response.body enc (Response.JSON StatusOK (Obj.products (served w.mongo cs)))
        = (jsonMarshal enc (served w.mongo cs)).getD "" := rfl
    have hhit : ∀ v, (rdbGet (cacheKey (c.Query "q")) W).1 = GetOutcome.value v →
        v = (jsonMarshal enc (served w.mongo cs)).getD "" := by
      intro v hv
      have hsome := ((rdbGet_value_iff _ _ _).mp hv).2
      rcases hstore with h | h
      · rw [h] at hsome
        cases hsome
      · rw [h] at hsome
        exact (Option.some.inj hsome).symm
    constructor
    · by_cases hit2 : ∃ v, (rdbGet (cacheKey (c.Query "q")) W).1 = GetOutcome.value v
      · obtain ⟨v, hv⟩ := hit2
        rw [searchHandler_hit enc c W v hk hv, hbody, hhit v hv]
        rfl
      · have hmiss2 : ∀ v, (rdbGet (cacheKey (c.Query "q")) W).1 ≠ GetOutcome.value v :=
          fun v hv => hit2 ⟨v, hv⟩
        rw [searchHandler_miss_response enc c W hk hmiss2,
          fetchFromMySQL_fst_congr (c.Query "q") w W hmysql, hcat, hmongo]
    · intro b hb hread
      have hv : (rdbGet (cacheKey (c.Query "q")) W).1 = GetOutcome.value b :=
        (rdbGet_value_iff _ _ _).mpr ⟨hread, hb⟩
      have hbV := hhit b hv
      rw [searchHandler_hit enc c W b hk hv, rdbGet_snd, hbody, hcalls]
      refine ⟨⟨[Call.redisGet ("search:" ++ c.Query "q"),
        Call.mysqlQuery fetchFromMySQL.query ("%" ++ c.Query "q" ++ "%")] ++
        lookups cs.toList, ?_⟩, hbV.symm, rfl, rfl, rfl⟩
      rw [hbV, ← List.append_assoc]

/-- Witness for C8: `q=phone` twice against a cold, healthy cache. -/
theorem repeated_search_same_bytes_witness :
    (phoneCtx.Query "q" ≠ "" ∧
     sampleWorld.redisStore (cacheKey (phoneCtx.Query "q")) = none ∧
     (searchHandler sampleEnc phoneCtx sampleWorld).2.redisStore (cacheKey (phoneCtx.Query "q"))
       = some ((searchHandler sampleEnc phoneCtx sampleWorld).1.body sampleEnc) ∧
     (searchHandler sampleEnc phoneCtx sampleWorld).2.redisFails = false) ∧
    (searchHandler sampleEnc phoneCtx sampleWorld).1.body sampleEnc =
      (searchHandler sampleEnc phoneCtx
        (searchHandler sampleEnc phoneCtx sampleWorld).2).1.body sampleEnc ∧
    (searchHandler sampleEnc phoneCtx (searchHandler sampleEnc phoneCtx sampleWorld).2).1 =
      Response.Data StatusOK "application/json"
        ((searchHandler sampleEnc phoneCtx sampleWorld).1.body sampleEnc) :=
  have h := repeated_search_same_bytes sampleEnc phoneCtx sampleWorld (by decide) (by decide)
  ⟨⟨by decide, by decide, by rfl, by decide⟩, h.1, (h.2 _ (by rfl) (by decide)).2.2.1⟩

end Flipkart
